import Mathlib

/-!
Verification of `src/get_instances.py`: an ECHONET Lite device-discovery
script that broadcasts a fixed 14-byte "get instance list" request over UDP
and collects replies in a timed loop.

The embedding models:
* the hex-string frame constant `pkt` and Python's `bytes.fromhex`;
* the sequence of socket-setup operations executed before the loop
  (lines 9-16 of the source) as an explicit operation trace;
* the collection loop (lines 18-24) as a function over a queue of timed
  receive events (datagrams and OS-level receive errors), with wall-clock
  time in milliseconds.  The loop condition `time.time() - start < 5.0`
  becomes `t - start < DURATION_MS`; `sock.settimeout(5.0)` becomes the
  fixed per-attempt timeout `TIMEOUT_MS`; `sock.recvfrom(1500)` clips the
  payload to `BUFSIZE` bytes.  A datagram queued at time `a` is delivered
  to a receive attempt started at time `t` (with timeout `T`) iff
  `a ≤ t + T`, at time `max t a`; otherwise the attempt times out at
  `t + T`.  `socket.timeout` is caught and breaks the loop; any other
  receive error propagates uncaught, after the results received so far
  have already been printed.
-/

namespace GetInstances

/-- Line 4 of the source: the broadcast destination address. -/
def IP : String := "192.168.0.255"

/-- Line 6 of the source: the ECHONET Lite well-known port. -/
def PORT : ℕ := 3610

/-- Line 7 of the source: the hex string of the "get instance list" frame. -/
def pkt : String := "1081 0000 0ef001 0ef001 62 01 d6 00"

/-- Value of a single hexadecimal digit character, if any. -/
def hexVal? (c : Char) : Option ℕ :=
  if '0' ≤ c ∧ c ≤ '9' then some (c.toNat - '0'.toNat)
  else if 'a' ≤ c ∧ c ≤ 'f' then some (c.toNat - 'a'.toNat + 10)
  else if 'A' ≤ c ∧ c ≤ 'F' then some (c.toNat - 'A'.toNat + 10)
  else none

/-- Consecutive pairs of hex digits to byte values; fails on an odd count
or a non-hex digit. -/
def pairsToBytes : List Char → Option (List ℕ)
  | [] => some []
  | [_] => none
  | c1 :: c2 :: rest => do
    let h ← hexVal? c1
    let l ← hexVal? c2
    let bs ← pairsToBytes rest
    pure ((16 * h + l) :: bs)

/-- Python's `bytes.fromhex`: whitespace is ignored, then each pair of hex
digits yields one byte. -/
def bytesFromHex (s : String) : Option (List ℕ) :=
  pairsToBytes (s.toList.filter (fun c => ¬ c.isWhitespace))

/-- The bytes actually transmitted on line 13: `bytes.fromhex(pkt)`. -/
def pktBytes : List ℕ := (bytesFromHex pkt).getD []

/-- The spec's Frame Builder operation; in the source it is the constant
frame `bytes.fromhex(pkt)`. -/
def build_instance_list_request : List ℕ := pktBytes

/-- Line 21: `sock.recvfrom(1500)` receive buffer size. -/
def BUFSIZE : ℕ := 1500

/-- Line 19: the `5.0`-second loop budget, in milliseconds. -/
def DURATION_MS : ℕ := 5000

/-- Line 16: the `5.0`-second socket timeout, in milliseconds. -/
def TIMEOUT_MS : ℕ := 5000

/-- A datagram on the wire: arrival time (ms), sender endpoint, payload. -/
structure Datagram where
  arrival : ℕ
  source : String × ℕ
  payload : List ℕ
  deriving DecidableEq, Repr

/-- One event the socket can deliver to a receive attempt: a datagram, or
an OS-level receive error other than `socket.timeout`. -/
inductive RecvEvent where
  | dgram (d : Datagram)
  | oserr (arrival : ℕ) (kind : String)
  deriving DecidableEq, Repr

/-- Outcome of running the collection loop: the `(addr, msg)` pairs
printed, the time the loop was left, the uncaught exception if any, and
the `(start time, timeout)` of every `recvfrom` attempt made. -/
structure CollectResult where
  printed : List ((String × ℕ) × List ℕ)
  finish : ℕ
  uncaught : Option String
  attempts : List (ℕ × ℕ)
  deriving DecidableEq, Repr

/-- Lines 18-24 of the source.  `start` is `start_time`, `timeout` the
socket timeout set on line 16, `t` the current wall clock, and the list
the queue of future receive events in delivery order.  While
`t - start < DURATION_MS` holds, one receive attempt is made: a queued
event with arrival `≤ t + timeout` is delivered at `max t arrival`
(a datagram is printed clipped to `BUFSIZE` and the loop continues; any
other error propagates uncaught); with no such event the attempt raises
`socket.timeout` at `t + timeout`, which breaks the loop. -/
def recvLoop (start timeout : ℕ) : ℕ → List RecvEvent → CollectResult
  | t, [] =>
    if t - start < DURATION_MS then
      ⟨[], t + timeout, none, [(t, timeout)]⟩
    else
      ⟨[], t, none, []⟩
  | t, e :: rest =>
    if t - start < DURATION_MS then
      match e with
      | .dgram d =>
        if d.arrival ≤ t + timeout then
          let r := recvLoop start timeout (max t d.arrival) rest
          ⟨(d.source, d.payload.take BUFSIZE) :: r.printed, r.finish,
            r.uncaught, (t, timeout) :: r.attempts⟩
        else
          ⟨[], t + timeout, none, [(t, timeout)]⟩
      | .oserr a k =>
        if a ≤ t + timeout then
          ⟨[], max t a, some k, [(t, timeout)]⟩
        else
          ⟨[], t + timeout, none, [(t, timeout)]⟩
    else
      ⟨[], t, none, []⟩

/-- The whole collection phase: enter the loop at wall clock `start` with
the socket timeout fixed at `TIMEOUT_MS`. -/
def collect (start : ℕ) (events : List RecvEvent) : CollectResult :=
  recvLoop start TIMEOUT_MS start events

/-- A socket operation executed by the script before the loop. -/
inductive SockOp where
  | create (family sockType : String)
  | setsockopt (level optname : String) (value : ℕ)
  | bind (host : String) (port : ℕ)
  | sendto (payload : List ℕ) (host : String) (port : ℕ)
  | settimeout (ms : ℕ)
  deriving DecidableEq, Repr

/-- Lines 9-16 of the source, in program order: create the UDP socket,
enable address reuse and broadcast, bind the wildcard address on `PORT`,
broadcast the frame to `(IP, PORT)`, set the socket timeout. -/
def setupTrace : List SockOp :=
  [ .create "AF_INET" "SOCK_DGRAM",
    .setsockopt "SOL_SOCKET" "SO_REUSEADDR" 1,
    .setsockopt "SOL_SOCKET" "SO_BROADCAST" 1,
    .bind "" PORT,
    .sendto pktBytes IP PORT,
    .settimeout TIMEOUT_MS ]

end GetInstances

namespace GetInstances

/-- Every receive attempt recorded by the loop uses the timeout the loop
was entered with; the loop never changes it. -/
lemma recvLoop_attempts_timeout (start T : ℕ) :
    ∀ (events : List RecvEvent) (t : ℕ) (p : ℕ × ℕ),
      p ∈ (recvLoop start T t events).attempts → p.2 = T := by
  intro events
  induction events with
  | nil =>
    intro t p hp
    simp only [recvLoop] at hp
    split at hp <;> simp_all
  | cons e rest ih =>
    intro t p hp
    cases e with
    | dgram d =>
      simp only [recvLoop] at hp
      split at hp
      · split at hp
        · simp only [List.mem_cons] at hp
          rcases hp with hp | hp
          · simp [hp]
          · exact ih _ p hp
        · simp_all
      · simp_all
    | oserr a k =>
      simp only [recvLoop] at hp
      split at hp
      · split at hp <;> simp_all
      · simp_all

/-- The loop is always left no later than `start + DURATION_MS + T`: an
attempt begun before the deadline can overrun it by at most one full
socket timeout. -/
lemma recvLoop_finish_le (start T : ℕ) :
    ∀ (events : List RecvEvent) (t : ℕ),
      t ≤ start + DURATION_MS + T →
      (recvLoop start T t events).finish ≤ start + DURATION_MS + T := by
  intro events
  induction events with
  | nil =>
    intro t ht
    simp only [recvLoop]
    split <;> dsimp only <;> omega
  | cons e rest ih =>
    intro t ht
    cases e with
    | dgram d =>
      simp only [recvLoop]
      split
      · split
        · dsimp only
          rename_i h1 h2
          exact ih (max t d.arrival) (by omega)
        · dsimp only; rename_i h1 h2; omega
      · dsimp only; omega
    | oserr a k =>
      simp only [recvLoop]
      split
      · split <;> dsimp only <;> rename_i h1 h2 <;> omega
      · dsimp only; omega

/-- Every printed entry comes from a queued datagram whose arrival is
earlier than `start + DURATION_MS + T`, and carries its payload clipped
to `BUFSIZE`. -/
lemma recvLoop_printed_mem (start T : ℕ) :
    ∀ (events : List RecvEvent) (t : ℕ) (x : (String × ℕ) × List ℕ),
      x ∈ (recvLoop start T t events).printed →
      ∃ d : Datagram, RecvEvent.dgram d ∈ events ∧
        x = (d.source, d.payload.take BUFSIZE) ∧
        d.arrival < start + DURATION_MS + T := by
  intro events
  induction events with
  | nil =>
    intro t x hx
    simp only [recvLoop] at hx
    split at hx <;> simp_all
  | cons e rest ih =>
    intro t x hx
    cases e with
    | dgram d =>
      simp only [recvLoop] at hx
      split at hx
      · split at hx
        · simp only [List.mem_cons] at hx
          rcases hx with hx | hx
          · rename_i h1 h2
            exact ⟨d, List.mem_cons_self _ _, hx, by omega⟩
          · obtain ⟨d', hmem, hxeq, hlt⟩ := ih _ x hx
            exact ⟨d', List.mem_cons_of_mem _ hmem, hxeq, hlt⟩
        · simp_all
      · simp_all
    | oserr a k =>
      simp only [recvLoop] at hx
      split at hx
      · split at hx <;> simp_all
      · simp_all

/-- If every queued datagram arrives strictly before `start + DURATION_MS`
and the clock entering the loop satisfies `start ≤ t < start + DURATION_MS`,
the loop prints every one of them in queue order and raises nothing. -/
lemma recvLoop_all_before_deadline (start : ℕ) :
    ∀ (ds : List Datagram) (t : ℕ), start ≤ t → t - start < DURATION_MS →
      (∀ d ∈ ds, d.arrival < start + DURATION_MS) →
      (recvLoop start TIMEOUT_MS t (ds.map RecvEvent.dgram)).printed =
        ds.map (fun d => (d.source, d.payload.take BUFSIZE)) ∧
      (recvLoop start TIMEOUT_MS t (ds.map RecvEvent.dgram)).uncaught = none := by
  intro ds
  induction ds with
  | nil =>
    intro t h1 h2 _
    simp [recvLoop, h2]
  | cons d ds ih =>
    intro t h1 h2 h3
    have hDT : DURATION_MS ≤ TIMEOUT_MS := by decide
    have hd : d.arrival < start + DURATION_MS := h3 d (List.mem_cons_self _ _)
    have hadm : d.arrival ≤ t + TIMEOUT_MS := by omega
    have hrec := ih (max t d.arrival) (by omega) (by omega)
      (fun d' hd' => h3 d' (List.mem_cons_of_mem _ hd'))
    simp only [List.map_cons, recvLoop, if_pos h2, if_pos hadm]
    simp [hrec.1, hrec.2]

/-- Like `recvLoop_all_before_deadline`, with a non-timeout receive error
queued after the datagrams and arriving before the deadline: everything
before the error is printed, the error escapes uncaught, and the rest of
the queue is never touched. -/
lemma recvLoop_error_aborts (start a : ℕ) (k : String) (rest : List RecvEvent) :
    ∀ (ds : List Datagram) (t : ℕ), start ≤ t → t - start < DURATION_MS →
      (∀ d ∈ ds, d.arrival < start + DURATION_MS) →
      a < start + DURATION_MS →
      (recvLoop start TIMEOUT_MS t
          (ds.map RecvEvent.dgram ++ RecvEvent.oserr a k :: rest)).printed =
        ds.map (fun d => (d.source, d.payload.take BUFSIZE)) ∧
      (recvLoop start TIMEOUT_MS t
          (ds.map RecvEvent.dgram ++ RecvEvent.oserr a k :: rest)).uncaught =
        some k := by
  intro ds
  induction ds with
  | nil =>
    intro t h1 h2 _ ha
    have hDT : DURATION_MS ≤ TIMEOUT_MS := by decide
    have hadm : a ≤ t + TIMEOUT_MS := by omega
    simp [recvLoop, h2, hadm]
  | cons d ds ih =>
    intro t h1 h2 h3 ha
    have hDT : DURATION_MS ≤ TIMEOUT_MS := by decide
    have hd : d.arrival < start + DURATION_MS := h3 d (List.mem_cons_self _ _)
    have hadm : d.arrival ≤ t + TIMEOUT_MS := by omega
    have hrec := ih (max t d.arrival) (by omega) (by omega)
      (fun d' hd' => h3 d' (List.mem_cons_of_mem _ hd')) ha
    simp only [List.map_cons, List.cons_append, recvLoop, if_pos h2, if_pos hadm]
    simp [hrec.1, hrec.2]

/-- C1: the frame builder always returns exactly the 14 bytes
10 81 00 00 0e f0 01 0e f0 01 62 01 d6 00 — `bytes.fromhex` succeeds on
`pkt` with exactly this sequence, its length is 14, and the setup trace
transmits exactly this sequence as the broadcast datagram. -/
theorem frame_builder_exact_bytes :
    build_instance_list_request =
      [0x10, 0x81, 0x00, 0x00, 0x0e, 0xf0, 0x01, 0x0e, 0xf0, 0x01,
        0x62, 0x01, 0xd6, 0x00] ∧
    build_instance_list_request.length = 14 ∧
    bytesFromHex pkt = some build_instance_list_request ∧
    SockOp.sendto build_instance_list_request IP PORT ∈ setupTrace := by
  decide

/-- C2 counterexample: with zero modelling overhead, one datagram arriving
at 4999 ms makes the loop re-check with 1 ms of budget left, start another
attempt with the full 5000 ms timeout, and return only at 9999 ms — the
wall time in the loop exceeds the 5000 ms duration by 4999 ms, because the
attempt is NOT bounded by the remaining time budget. -/
theorem collect_attempt_exceeds_remaining_cex :
    (collect 0 [RecvEvent.dgram ⟨4999, ("192.168.0.10", 3610), [0x71]⟩]).finish
      = 9999 ∧
    DURATION_MS < 9999 ∧
    (collect 0 [RecvEvent.dgram ⟨4999, ("192.168.0.10", 3610), [0x71]⟩]).attempts
      = [(0, TIMEOUT_MS), (4999, TIMEOUT_MS)] := by
  decide

/-- C2 amended: for every start time and every pattern of receive events,
the loop is left no later than `start + DURATION_MS + TIMEOUT_MS`
(10 seconds total): each receive attempt is bounded by the fixed 5-second
socket timeout rather than by the remaining budget, so the loop can overrun
the duration by up to one full timeout, but no more. -/
theorem collect_within_duration_plus_timeout (start : ℕ)
    (events : List RecvEvent) :
    (collect start events).finish ≤ start + DURATION_MS + TIMEOUT_MS :=
  recvLoop_finish_le start TIMEOUT_MS events start (by omega)

/-- C3 counterexample: a datagram received at 1000 ms keeps the loop alive;
a reply arriving at 5100 ms — 100 ms after the 5000 ms deadline — still
falls inside the pending attempt's window (1000 + 5000) and IS included in
the printed results. -/
theorem late_datagram_included_cex :
    (collect 0 [RecvEvent.dgram ⟨1000, ("192.168.0.10", 3610), [0x71]⟩,
                RecvEvent.dgram ⟨5100, ("192.168.0.11", 3610), [0x72]⟩]).printed
      = [(("192.168.0.10", 3610), [0x71]), (("192.168.0.11", 3610), [0x72])] ∧
    5100 = DURATION_MS + 100 := by
  decide

/-- C3 amended: a datagram arriving at or after
`start + DURATION_MS + TIMEOUT_MS` (10 s) is never included; one arriving
after the deadline but within the fixed socket timeout of a receive
attempt begun before the deadline may still be included.  Every printed
entry originates from a queued datagram arriving strictly before the
10-second cutoff, with its payload clipped to the buffer. -/
theorem printed_entries_arrival_cutoff (start : ℕ) (events : List RecvEvent)
    (x : (String × ℕ) × List ℕ)
    (hx : x ∈ (collect start events).printed) :
    ∃ d : Datagram, RecvEvent.dgram d ∈ events ∧
      x = (d.source, d.payload.take BUFSIZE) ∧
      d.arrival < start + DURATION_MS + TIMEOUT_MS :=
  recvLoop_printed_mem start TIMEOUT_MS events start x hx

/-- Witness for `printed_entries_arrival_cutoff` at a concrete run. -/
theorem printed_entries_arrival_cutoff_witness :
    ∃ d : Datagram,
      RecvEvent.dgram d ∈
        [RecvEvent.dgram ⟨40, ("192.168.0.7", 3610), [0x10, 0x81]⟩] ∧
      ((("192.168.0.7", 3610), [0x10, 0x81]) : (String × ℕ) × List ℕ)
        = (d.source, d.payload.take BUFSIZE) ∧
      d.arrival < 0 + DURATION_MS + TIMEOUT_MS :=
  printed_entries_arrival_cutoff 0
    [RecvEvent.dgram ⟨40, ("192.168.0.7", 3610), [0x10, 0x81]⟩]
    ((("192.168.0.7", 3610), [0x10, 0x81])) (by decide)

/-- C4: if exactly the datagrams `ds` arrive, each strictly before the
deadline `start + DURATION_MS`, the loop prints all of them, in arrival
order, with the received bytes of each (the payload clipped to the
receive buffer), raises nothing, and its count equals `ds.length` with no
bound imposed by the loop itself. -/
theorem collect_returns_all_n (start : ℕ) (ds : List Datagram)
    (h : ∀ d ∈ ds, d.arrival < start + DURATION_MS) :
    (collect start (ds.map RecvEvent.dgram)).printed =
      ds.map (fun d => (d.source, d.payload.take BUFSIZE)) ∧
    (collect start (ds.map RecvEvent.dgram)).printed.length = ds.length ∧
    (collect start (ds.map RecvEvent.dgram)).uncaught = none := by
  have h0 : 0 < DURATION_MS := by decide
  have hall := recvLoop_all_before_deadline start ds start le_rfl (by omega) h
  have hp : (collect start (ds.map RecvEvent.dgram)).printed =
      ds.map (fun d => (d.source, d.payload.take BUFSIZE)) := hall.1
  exact ⟨hp, by rw [hp, List.length_map], hall.2⟩

/-- Witness for `collect_returns_all_n`: two datagrams before the
deadline are both returned, in order, byte for byte. -/
theorem collect_returns_all_n_witness :
    (collect 0 (([⟨10, ("192.168.0.2", 3610), [0x10, 0x81]⟩,
                  ⟨20, ("192.168.0.3", 3610), [0x72]⟩] : List Datagram).map
        RecvEvent.dgram)).printed =
      ([⟨10, ("192.168.0.2", 3610), [0x10, 0x81]⟩,
        ⟨20, ("192.168.0.3", 3610), [0x72]⟩] : List Datagram).map
        (fun d => (d.source, d.payload.take BUFSIZE)) ∧
    (collect 0 (([⟨10, ("192.168.0.2", 3610), [0x10, 0x81]⟩,
                  ⟨20, ("192.168.0.3", 3610), [0x72]⟩] : List Datagram).map
        RecvEvent.dgram)).printed.length =
      ([⟨10, ("192.168.0.2", 3610), [0x10, 0x81]⟩,
        ⟨20, ("192.168.0.3", 3610), [0x72]⟩] : List Datagram).length ∧
    (collect 0 (([⟨10, ("192.168.0.2", 3610), [0x10, 0x81]⟩,
                  ⟨20, ("192.168.0.3", 3610), [0x72]⟩] : List Datagram).map
        RecvEvent.dgram)).uncaught = none :=
  collect_returns_all_n 0
    [⟨10, ("192.168.0.2", 3610), [0x10, 0x81]⟩,
     ⟨20, ("192.168.0.3", 3610), [0x72]⟩] (by decide)

/-- C5: with no arriving datagrams the loop prints nothing, raises
nothing (the per-attempt timeout is absorbed into loop termination), and
returns when the single attempt times out. -/
theorem collect_zero_datagrams (start : ℕ) :
    (collect start []).printed = [] ∧
    (collect start []).uncaught = none ∧
    (collect start []).finish = start + TIMEOUT_MS := by
  simp [collect, recvLoop, DURATION_MS]

/-- C6: a non-timeout receive error arriving before the deadline, after
the datagrams `ds` have been received, escapes the loop uncaught — it
aborts collection (later queued events are never received) — while every
response received before it has already been printed and is preserved. -/
theorem receive_error_preserves_partial (start a : ℕ) (k : String)
    (rest : List RecvEvent) (ds : List Datagram)
    (hds : ∀ d ∈ ds, d.arrival < start + DURATION_MS)
    (ha : a < start + DURATION_MS) :
    (collect start
        (ds.map RecvEvent.dgram ++ RecvEvent.oserr a k :: rest)).printed =
      ds.map (fun d => (d.source, d.payload.take BUFSIZE)) ∧
    (collect start
        (ds.map RecvEvent.dgram ++ RecvEvent.oserr a k :: rest)).uncaught =
      some k := by
  have h0 : 0 < DURATION_MS := by decide
  exact recvLoop_error_aborts start a k rest ds start le_rfl (by omega) hds ha

/-- Witness for `receive_error_preserves_partial` at a concrete run. -/
theorem receive_error_preserves_partial_witness :
    (collect 0 (([⟨10, ("192.168.0.2", 3610), [0x72]⟩] : List Datagram).map
          RecvEvent.dgram ++
        RecvEvent.oserr 500 "ConnectionResetError" ::
          [RecvEvent.dgram ⟨600, ("192.168.0.4", 3610), [0x73]⟩])).printed =
      ([⟨10, ("192.168.0.2", 3610), [0x72]⟩] : List Datagram).map
        (fun d => (d.source, d.payload.take BUFSIZE)) ∧
    (collect 0 (([⟨10, ("192.168.0.2", 3610), [0x72]⟩] : List Datagram).map
          RecvEvent.dgram ++
        RecvEvent.oserr 500 "ConnectionResetError" ::
          [RecvEvent.dgram ⟨600, ("192.168.0.4", 3610), [0x73]⟩])).uncaught =
      some "ConnectionResetError" :=
  receive_error_preserves_partial 0 500 "ConnectionResetError"
    [RecvEvent.dgram ⟨600, ("192.168.0.4", 3610), [0x73]⟩]
    [⟨10, ("192.168.0.2", 3610), [0x72]⟩] (by decide) (by decide)

/-- C7: every printed payload has at most `BUFSIZE` (1500) bytes, and a
single datagram arriving before the deadline — of any size, including one
larger than the buffer — is accepted clipped to the buffer limit and
printed as a normal response, with nothing raised. -/
theorem recv_clips_oversized (start : ℕ) (events : List RecvEvent)
    (d : Datagram) (hd : d.arrival < start + DURATION_MS) :
    (∀ x ∈ (collect start events).printed, x.2.length ≤ BUFSIZE) ∧
    (collect start [RecvEvent.dgram d]).printed =
      [(d.source, d.payload.take BUFSIZE)] ∧
    (collect start [RecvEvent.dgram d]).uncaught = none := by
  have h0 : 0 < DURATION_MS := by decide
  refine ⟨fun x hx => ?_, ?_, ?_⟩
  · obtain ⟨d', _, hxeq, _⟩ :=
      recvLoop_printed_mem start TIMEOUT_MS events start x hx
    rw [hxeq]
    exact List.length_take_le BUFSIZE d'.payload
  · have := recvLoop_all_before_deadline start [d] start le_rfl (by omega)
      (by intro d' hd'; rw [List.mem_singleton] at hd'; rw [hd']; exact hd)
    exact this.1
  · have := recvLoop_all_before_deadline start [d] start le_rfl (by omega)
      (by intro d' hd'; rw [List.mem_singleton] at hd'; rw [hd']; exact hd)
    exact this.2

/-- Witness for `recv_clips_oversized`: a 1501-byte datagram is accepted
clipped to 1500 bytes, with no error. -/
theorem recv_clips_oversized_witness :
    (∀ x ∈ (collect 0 ([] : List RecvEvent)).printed,
        x.2.length ≤ BUFSIZE) ∧
    (collect 0 [RecvEvent.dgram
        ⟨0, ("192.168.0.9", 3610), List.replicate 1501 171⟩]).printed =
      [(("192.168.0.9", 3610), (List.replicate 1501 171).take BUFSIZE)] ∧
    (collect 0 [RecvEvent.dgram
        ⟨0, ("192.168.0.9", 3610), List.replicate 1501 171⟩]).uncaught =
      none :=
  recv_clips_oversized 0 []
    ⟨0, ("192.168.0.9", 3610), List.replicate 1501 171⟩ (by decide)

/-- C8: the setup trace creates a UDP socket first, enables address reuse
and broadcast permission, and binds the wildcard address on port 3610 —
all before the frame is sent. -/
theorem socket_setup_reuse_broadcast_bind :
    setupTrace.indexOf (SockOp.create "AF_INET" "SOCK_DGRAM") = 0 ∧
    SockOp.setsockopt "SOL_SOCKET" "SO_REUSEADDR" 1 ∈ setupTrace ∧
    SockOp.setsockopt "SOL_SOCKET" "SO_BROADCAST" 1 ∈ setupTrace ∧
    setupTrace.indexOf (SockOp.setsockopt "SOL_SOCKET" "SO_REUSEADDR" 1) <
      setupTrace.indexOf (SockOp.bind "" PORT) ∧
    setupTrace.indexOf (SockOp.setsockopt "SOL_SOCKET" "SO_BROADCAST" 1) <
      setupTrace.indexOf (SockOp.bind "" PORT) ∧
    setupTrace.indexOf (SockOp.bind "" PORT) <
      setupTrace.indexOf (SockOp.sendto pktBytes IP PORT) ∧
    PORT = 3610 := by
  decide

/-- C9: `settimeout` appears exactly once in the setup trace, as its last
operation before the loop, with the full 5000 ms duration; and every
receive attempt the loop ever makes uses exactly that fixed timeout,
whatever the remaining budget. -/
theorem fixed_timeout_every_attempt (start : ℕ) (events : List RecvEvent)
    (p : ℕ × ℕ) (hp : p ∈ (collect start events).attempts) :
    p.2 = TIMEOUT_MS ∧
    setupTrace.count (SockOp.settimeout TIMEOUT_MS) = 1 ∧
    setupTrace.getLast? = some (SockOp.settimeout TIMEOUT_MS) ∧
    TIMEOUT_MS = DURATION_MS :=
  ⟨recvLoop_attempts_timeout start TIMEOUT_MS events start p hp,
    by decide, by decide, by decide⟩

/-- Witness for `fixed_timeout_every_attempt`: the attempt started at
4999 ms — with 1 ms of budget remaining — still carries the 5000 ms
timeout. -/
theorem fixed_timeout_every_attempt_witness :
    (((4999 : ℕ), TIMEOUT_MS) : ℕ × ℕ).2 = TIMEOUT_MS ∧
    setupTrace.count (SockOp.settimeout TIMEOUT_MS) = 1 ∧
    setupTrace.getLast? = some (SockOp.settimeout TIMEOUT_MS) ∧
    TIMEOUT_MS = DURATION_MS :=
  fixed_timeout_every_attempt 0
    [RecvEvent.dgram ⟨4999, ("192.168.0.10", 3610), [0x71]⟩]
    ((4999 : ℕ), TIMEOUT_MS) (by decide)

/-- C10: the socket is bound to the wildcard address on `PORT` and the
broadcast is sent to that same `PORT` (3610), with the bind strictly
before the send — so throughout the discovery cycle the session listens
on the very port it broadcasts to. -/
theorem bind_and_send_same_port :
    SockOp.bind "" PORT ∈ setupTrace ∧
    SockOp.sendto pktBytes IP PORT ∈ setupTrace ∧
    setupTrace.indexOf (SockOp.bind "" PORT) <
      setupTrace.indexOf (SockOp.sendto pktBytes IP PORT) ∧
    PORT = 3610 := by
  decide

end GetInstances
